import Mathlib

/-!
Verification development for the photo-organizing script (src/photos.py).

The script is embedded shallowly: filenames and date strings are `String`s,
the destination filesystem is explicit state (a list of existing directory
paths and a list of files present in destination directories), EXIF metadata
reads are an `Option`-valued field of the modelled media file (with `none`
covering both a failed open/read and a missing metadata dictionary), and
`time.localtime` is an abstract parameter mapping an epoch timestamp to a
broken-down local time.

The file lists all definitions first, then the lemmas and theorems.
-/

namespace Photos

/-- Broken-down local time, the part of a `struct tm` that the script's
strftime format string consumes. -/
structure Tm where
  year : Nat
  month : Nat
  mday : Nat
  hour : Nat
  minute : Nat
  sec : Nat
deriving DecidableEq

/-- Accumulate one decimal digit character onto a value, most significant
digit first.  Used to show that decimal rendering of naturals (Python
`str(append)`, Lean `Nat.repr`) is injective. -/
def decodeStep (a : Nat) (c : Char) : Nat := 10 * a + (c.toNat - 48)

/-- Python `s.split(sep)` for a one-character separator, on the character
list of the string: splits at every occurrence, keeping empty groups, and
always returns at least one group. -/
def splitOn (sep : Char) : List Char → List (List Char)
  | [] => [[]]
  | c :: cs =>
    if c == sep then [] :: splitOn sep cs
    else
      match splitOn sep cs with
      | [] => [[c]]
      | g :: gs => (c :: g) :: gs

/-- Python `sep.join(groups)` on character lists. -/
def joinWith (sep : List Char) : List (List Char) → List Char
  | [] => []
  | [x] => x
  | x :: y :: rest => x ++ sep ++ joinWith sep (y :: rest)

/-- Python `s.split(sep)` on strings. -/
def pySplit (sep : Char) (s : String) : List String :=
  (splitOn sep s.data).map String.mk

/-- One disambiguated candidate name of `copy_file` (lines 90-92 of
photos.py): `source_file_name.split('.')` with `"-" + str(append)` appended
to the first segment, rejoined by `'.'`. -/
def disambiguate (source_file_name : String) (append : Nat) : String :=
  match splitOn '.' source_file_name.data with
  | [] => source_file_name
  | p :: rest => String.mk (joinWith ['.'] ((p ++ '-' :: (Nat.repr append).data) :: rest))

/-- The `while os.path.exists(dest_full_path)` loop of `copy_file`
(lines 88-93), with explicit fuel.  State: the current disambiguator count
`append` and the current candidate name `cur` (initially the source file
name, count 0).  Returns the first free name with the count that made it. -/
def copy_file_aux (dest : List String) (source_file_name : String) :
    Nat → String → Nat → Option (String × Nat)
  | _, _, 0 => none
  | append, cur, fuel + 1 =>
    if cur ∈ dest then
      copy_file_aux dest source_file_name (append + 1)
        (disambiguate source_file_name (append + 1)) fuel
    else
      some (cur, append)

/-- The final state of `copy_file`'s collision loop: the name the file is
copied to and the final value of `append`.  Fuel `dest.length + 2` always
suffices (proved below); the default of `getD` is never reached. -/
def copy_file_run (dest : List String) (source_file_name : String) : String × Nat :=
  (copy_file_aux dest source_file_name 0 source_file_name (dest.length + 2)).getD
    (source_file_name, 0)

/-- The value `copy_file` returns (line 97 of photos.py):
`new_name if append > 0 else None`. -/
def copy_file (dest : List String) (source_file_name : String) : Option String :=
  let r := copy_file_run dest source_file_name
  if r.2 > 0 then some r.1 else none

/-- A file as seen by the script: its directory, base name, the outcome of
the `PIL` EXIF metadata read `Image.open(full_path)._getexif()` (with
`none` when opening or reading raised, every error being swallowed by the
bare `except` of lines 49-54, or when `_getexif` returned `None`; tag
dictionaries are association lists from numeric tag to string value), and
its filesystem creation and modification timestamps (epoch seconds). -/
structure MediaFile where
  root : String
  name : String
  exifInfo : Option (List (Nat × String))
  created : Nat
  modified : Nat
deriving DecidableEq

/-- Python truthiness of the `info` value at line 55: `None` and the empty
dictionary are falsy. -/
def infoTruthy : Option (List (Nat × String)) → Bool
  | none => false
  | some l => !l.isEmpty

/-- Python `36867 in info`: key membership in the tag dictionary (false for
`None`). -/
def hasTag (info : Option (List (Nat × String))) (t : Nat) : Bool :=
  match info with
  | none => false
  | some l => l.any (fun p => p.1 == t)

/-- Python `info[36867]`: dictionary lookup (the default is never reached
when the key is present). -/
def getTag (info : Option (List (Nat × String))) (t : Nat) : String :=
  match info with
  | none => ""
  | some l => ((l.find? (fun p => p.1 == t)).map Prod.snd).getD ""

/-- Two-digit zero-padded decimal rendering, as produced by the `%m`, `%d`,
`%I`, `%M`, `%S` strftime directives for in-range values. -/
def pad2 (n : Nat) : String :=
  if n < 10 then "0" ++ Nat.repr n else Nat.repr n

/-- The hour shown by the `%I` strftime directive: 12-hour clock, hours
1 to 12. -/
def hour12 (h : Nat) : Nat :=
  if h % 12 == 0 then 12 else h % 12

/-- `time.strftime('%Y:%m:%d %I:%M:%S', t)` (line 62 of photos.py) for a
broken-down time `t`: note the hour directive is `%I` (12-hour clock),
not `%H`. -/
def strftime_fmt (t : Tm) : String :=
  Nat.repr t.year ++ ":" ++ pad2 t.month ++ ":" ++ pad2 t.mday ++ " " ++
    pad2 (hour12 t.hour) ++ ":" ++ pad2 t.minute ++ ":" ++ pad2 t.sec

/-- `get_best_date` (lines 41-63): trust the EXIF DateTimeOriginal tag
(36867) when the metadata dictionary is truthy and has the key; otherwise
fall back to the earlier of the creation and modification timestamps,
rendered through the strftime format above. -/
def get_best_date (localtime : Nat → Tm) (f : MediaFile) : String × Bool :=
  let info := f.exifInfo
  if infoTruthy info && hasTag info 36867 then
    (getTag info 36867, true)
  else
    let created_date := f.created
    let modified_date := f.modified
    let ctime := if modified_date < created_date then modified_date else created_date
    (strftime_fmt (localtime ctime), false)

/-- Specification-side rendering of the format contract, following the
spec's words: a colon-delimited `year:month:day hour:minute:second` string
with two-digit zero-padded fields after the year.  Used to compare the
code's output shape with the claimed `YYYY:MM:DD HH:MM:SS` form. -/
def specColonFormat (y mo d h mi s : Nat) : String :=
  Nat.repr y ++ ":" ++ pad2 mo ++ ":" ++ pad2 d ++ " " ++
    pad2 h ++ ":" ++ pad2 mi ++ ":" ++ pad2 s

/-- All nonempty prefixes of a segment path, shortest first: the chain of
directories `os.makedirs` has to ensure. -/
def ancestors : List String → List (List String)
  | [] => []
  | a :: rest => [a] :: (ancestors rest).map (fun q => a :: q)

/-- `os.makedirs(p)`: afterwards every nonempty prefix of `p` exists; the
directories that already existed are untouched. -/
def makedirs (fs : List (List String)) (p : List String) : List (List String) :=
  fs ++ (ancestors p).filter (fun q => decide (q ∉ fs))

/-- `create_dir` (lines 66-77): split the date string on `':'`, build
`base_dir/media_dir/parts[0]/parts[0]-parts[1]`, create it (and any missing
ancestor) if absent, and return it.  Directory paths are lists of path
segments; the set of existing directories is explicit state, and the Python
`args.dest_dir` is the `dest_dir` argument.  This total function renders
only the in-range behavior: the `getD` defaults stand where Python's
`parts[1]` would raise `IndexError` for a date string with no colon; that
raising case is modelled faithfully by `create_dir_checked` below, which
agrees with this function exactly on the colon-delimited inputs. -/
def create_dir (dest_dir : String) (fs : List (List String))
    (date_string : String) (media_dir : String) : List (List String) × List String :=
  let base_dir := dest_dir
  let parts := pySplit ':' date_string
  let new_dir := [base_dir, media_dir, parts.getD 0 "",
    parts.getD 0 "" ++ "-" ++ parts.getD 1 ""]
  if new_dir ∈ fs then (fs, new_dir) else (makedirs fs new_dir, new_dir)

/-- `create_dir` with its error path: Python evaluates `parts[1]` at line
74, which raises `IndexError` when the date string contains no `':'` (the
split then has a single part).  `none` models that raise; on every
colon-delimited date string the call succeeds and behaves as
`create_dir`. -/
def create_dir_checked (dest_dir : String) (fs : List (List String))
    (date_string : String) (media_dir : String) :
    Option (List (List String) × List String) :=
  if 2 ≤ (pySplit ':' date_string).length then
    some (create_dir dest_dir fs date_string media_dir)
  else none

/-- Python `s.lower()` for the ASCII strings the script handles:
character-wise lowercasing. -/
def pyLower (s : String) : String := String.mk (s.data.map Char.toLower)

/-- `os.path.splitext(full_path)[1]` for a base name without separators:
the suffix starting at the last dot, unless every character up to that dot
is itself a dot (so names such as `.DS_Store` have no extension). -/
def pyExt (name : String) : String :=
  let cs := name.data
  let rest := cs.drop (cs.takeWhile (fun c => c == '.')).length
  if rest.contains '.' then
    String.mk ('.' :: (cs.reverse.takeWhile (fun c => !(c == '.'))).reverse)
  else ""

/-- The photo extension list (line 123 of photos.py). -/
def photo_exts : List String :=
  [".jpg", ".png", ".jpeg", ".tiff", ".tif", ".bmp", ".gif", ".crw"]

/-- The video extension list (line 124 of photos.py). -/
def video_exts : List String :=
  [".mov", ".mp4", ".m4v", ".mpg", ".mpeg", ".ogv", ".flv", ".avi", ".wmv", ".webm"]

/-- The ignored base names (line 125 of photos.py). -/
def ignore_files : List String := ["Thumbs.db", ".DS_Store", "desktop.ini"]

/-- The Python dictionary update of lines 138-141: increment the entry of
the extension if present, else insert it with count 1. -/
def bump : List (String × Nat) → String → List (String × Nat)
  | [], k => [(k, 1)]
  | p :: rest, k => if p.1 == k then (p.1, p.2 + 1) :: rest else p :: bump rest k

/-- The mutable state of one run of `main`: counters, extension histogram,
log lines, and the destination filesystem (directories and the files
present in destination directories). -/
structure OrgState where
  total_files : Nat
  ignored_files : Nat
  total_exif : Nat
  total_photos : Nat
  total_videos : Nat
  file_exts : List (String × Nat)
  dirs : List (List String)
  destFiles : List (List String × String)
  logLines : List String
deriving DecidableEq

/-- The files currently present in one destination directory. -/
def filesIn (destFiles : List (List String × String)) (d : List String) : List String :=
  (destFiles.filter (fun q => q.1 == d)).map Prod.snd

/-- The body of the per-file loop of `main` (lines 133-160): count the
file, record its lowercased extension, resolve its best date, log it,
classify it, and unless its base name is ignored, create the target
directory and copy the file into it (logging a rename when the copier
disambiguated the name). -/
def process_file (localtime : Nat → Tm) (dest_dir : String)
    (st : OrgState) (f : MediaFile) : OrgState :=
  let total_files := st.total_files + 1
  let full_path := f.root ++ "/" ++ f.name
  let file_ext := pyLower (pyExt f.name)
  let file_exts := bump st.file_exts file_ext
  let bd := get_best_date localtime f
  let best_date := bd.1
  let had_exif := bd.2
  let total_exif := if had_exif then st.total_exif + 1 else st.total_exif
  let logLines := st.logLines ++
    [(if had_exif then "(Exif) " else "") ++ best_date ++ " " ++ full_path]
  let mc :=
    if file_ext ∈ photo_exts then ("Pictures", st.total_photos + 1, st.total_videos)
    else if file_ext ∈ video_exts then ("Videos", st.total_photos, st.total_videos + 1)
    else ("Other", st.total_photos, st.total_videos)
  let media_dir := mc.1
  let total_photos := mc.2.1
  let total_videos := mc.2.2
  if f.name ∈ ignore_files then
    { total_files := total_files, ignored_files := st.ignored_files + 1,
      total_exif := total_exif, total_photos := total_photos,
      total_videos := total_videos, file_exts := file_exts,
      dirs := st.dirs, destFiles := st.destFiles, logLines := logLines }
  else
    let cd := create_dir dest_dir st.dirs best_date media_dir
    let dirs := cd.1
    let created_dir := cd.2
    let cf := copy_file_run (filesIn st.destFiles created_dir) f.name
    let destFiles := st.destFiles ++ [(created_dir, cf.1)]
    let logLines :=
      if cf.2 > 0 then logLines ++ ["Renamed " ++ f.name ++ " to " ++ cf.1]
      else logLines
    { total_files := total_files, ignored_files := st.ignored_files,
      total_exif := total_exif, total_photos := total_photos,
      total_videos := total_videos, file_exts := file_exts,
      dirs := dirs, destFiles := destFiles, logLines := logLines }

/-- The state `main` starts from: all counters zero, empty histogram and
log, and whatever already exists at the destination. -/
def init_state (dirs : List (List String)) (destFiles : List (List String × String)) :
    OrgState :=
  { total_files := 0, ignored_files := 0, total_exif := 0, total_photos := 0,
    total_videos := 0, file_exts := [], dirs := dirs, destFiles := destFiles,
    logLines := [] }

/-- The whole walk: fold the per-file body over the files encountered. -/
def run_walk (localtime : Nat → Tm) (dest_dir : String)
    (dirs : List (List String)) (destFiles : List (List String × String))
    (files : List MediaFile) : OrgState :=
  files.foldl (process_file localtime dest_dir) (init_state dirs destFiles)

/-- Sum of all counts of the extension histogram. -/
def sumCounts (m : List (String × Nat)) : Nat := (m.map Prod.snd).sum

/-- The orchestrator-loop invariant of claim C10: the histogram counts sum
to the total-files counter, and photos and videos together never exceed
it. -/
def StatsInv (st : OrgState) : Prop :=
  sumCounts st.file_exts = st.total_files ∧
  st.total_photos + st.total_videos ≤ st.total_files

/-! ### Lemmas: decimal rendering is injective -/

/-- The character produced by `Nat.digitChar` for a decimal digit decodes
back to that digit. -/
lemma digitChar_val (m : Nat) (h : m < 10) : (Nat.digitChar m).toNat - 48 = m := by
  interval_cases m <;> rfl

/-- Folding `decodeStep` over the digit list produced by `Nat.toDigitsCore`
recovers the encoded number (then continues over the accumulator). -/
lemma toDigitsCore_decode :
    ∀ (fuel n : Nat) (acc : List Char), n < fuel →
      (Nat.toDigitsCore 10 fuel n acc).foldl decodeStep 0 = acc.foldl decodeStep n := by
  intro fuel
  induction fuel with
  | zero => intro n acc h; exact absurd h (Nat.not_lt_zero n)
  | succ f ih =>
    intro n acc h
    by_cases hdiv : n / 10 = 0
    · have hn10 : n % 10 = n := by omega
      simp only [Nat.toDigitsCore, hdiv, if_pos, List.foldl_cons]
      have hv : decodeStep 0 (Nat.digitChar (n % 10)) = n := by
        simp only [decodeStep, digitChar_val (n % 10) (by omega)]
        omega
      rw [hv]
    · have hrec : Nat.toDigitsCore 10 (f + 1) n acc =
          Nat.toDigitsCore 10 f (n / 10) (Nat.digitChar (n % 10) :: acc) := by
        simp only [Nat.toDigitsCore, hdiv, if_neg, ite_false]
      rw [hrec, ih (n / 10) (Nat.digitChar (n % 10) :: acc) (by omega)]
      simp only [List.foldl_cons]
      have hv : decodeStep (n / 10) (Nat.digitChar (n % 10)) = n := by
        simp only [decodeStep, digitChar_val (n % 10) (by omega)]
        omega
      rw [hv]

/-- Decimal rendering of naturals is injective. -/
lemma natRepr_inj {m n : Nat} (h : Nat.repr m = Nat.repr n) : m = n := by
  have hd : Nat.toDigits 10 m = Nat.toDigits 10 n := by
    have h2 := congrArg String.data h
    simpa [Nat.repr, List.asString] using h2
  have hm := toDigitsCore_decode (m + 1) m [] (Nat.lt_succ_self m)
  have hn := toDigitsCore_decode (n + 1) n [] (Nat.lt_succ_self n)
  unfold Nat.toDigits at hd
  rw [hd, hn] at hm
  simpa using hm.symm

/-! ### Lemmas: splitting, joining, and the collision loop -/

/-- Python's `split` always returns at least one group. -/
lemma splitOn_ne_nil (sep : Char) : ∀ cs : List Char, splitOn sep cs ≠ [] := by
  intro cs
  induction cs with
  | nil => simp [splitOn]
  | cons c cs ih =>
    by_cases h : c == sep
    · simp [splitOn, h]
    · simp only [splitOn, h, Bool.false_eq_true, if_false]
      cases hs : splitOn sep cs with
      | nil => simp
      | cons g gs => simp

/-- The head group of a join occupies an initial segment: changing only the
head group changes the join injectively. -/
lemma joinWith_head_inj (sep : List Char) (x y : List Char) (rest : List (List Char))
    (h : joinWith sep (x :: rest) = joinWith sep (y :: rest)) : x = y := by
  cases rest with
  | nil => simpa [joinWith] using h
  | cons z zs =>
    simp only [joinWith] at h
    rw [List.append_assoc, List.append_assoc] at h
    exact List.append_cancel_right h

/-- Distinct disambiguator counts give distinct candidate names. -/
lemma disambiguate_inj (name : String) {j k : Nat}
    (h : disambiguate name j = disambiguate name k) : j = k := by
  rcases hs : splitOn '.' name.data with _ | ⟨p, rest⟩
  · exact absurd hs (splitOn_ne_nil '.' name.data)
  · rw [disambiguate, disambiguate, hs] at h
    have h2 : joinWith ['.'] ((p ++ '-' :: (Nat.repr j).data) :: rest) =
        joinWith ['.'] ((p ++ '-' :: (Nat.repr k).data) :: rest) := by
      have h3 := congrArg String.data h
      simpa using h3
    have h3 := joinWith_head_inj ['.'] _ _ rest h2
    have h4 : (Nat.repr j).data = (Nat.repr k).data := by
      have h5 := List.append_cancel_left h3
      simpa using h5
    exact natRepr_inj (String.ext h4)

/-- Among the first `dest.length + 1` disambiguated candidates, at least one
name is absent from the destination directory (pigeonhole via injectivity
of the candidate names). -/
lemma exists_free_candidate (dest : List String) (name : String) :
    ∃ k, 1 ≤ k ∧ k ≤ dest.length + 1 ∧ disambiguate name k ∉ dest := by
  by_contra hall
  push_neg at hall
  have hmaps : ∀ k ∈ Finset.Icc 1 (dest.length + 1),
      disambiguate name k ∈ dest.toFinset := by
    intro k hk
    rw [Finset.mem_Icc] at hk
    exact List.mem_toFinset.mpr (hall k hk.1 hk.2)
  have hinj : ∀ a ∈ Finset.Icc 1 (dest.length + 1),
      ∀ b ∈ Finset.Icc 1 (dest.length + 1),
      disambiguate name a = disambiguate name b → a = b := by
    intro a _ b _ hab
    exact disambiguate_inj name hab
  have hcard := Finset.card_le_card_of_injOn _ hmaps hinj
  rw [Nat.card_Icc] at hcard
  have hle := dest.toFinset_card_le
  omega

/-- The loop exits within the given fuel as soon as some candidate in range
is free (or the current candidate already is). -/
lemma copy_file_aux_isSome (dest : List String) (name : String) :
    ∀ (fuel append : Nat) (cur : String),
      ((cur ∉ dest ∧ 1 ≤ fuel) ∨
        ∃ k, append < k ∧ k < append + fuel ∧ disambiguate name k ∉ dest) →
      (copy_file_aux dest name append cur fuel).isSome := by
  intro fuel
  induction fuel with
  | zero =>
    intro append cur h
    rcases h with ⟨_, h1⟩ | ⟨k, hk1, hk2, _⟩
    · omega
    · omega
  | succ f ih =>
    intro append cur h
    by_cases hcur : cur ∈ dest
    · simp only [copy_file_aux, hcur, if_pos]
      apply ih
      rcases h with ⟨hno, _⟩ | ⟨k, hk1, hk2, hk3⟩
      · exact absurd hcur hno
      · by_cases hk : k = append + 1
        · left
          refine ⟨hk ▸ hk3, ?_⟩
          omega
        · right
          exact ⟨k, by omega, by omega, hk3⟩
    · simp [copy_file_aux, hcur]

/-- With fuel `dest.length + 2` the loop always finds a free name. -/
lemma copy_file_aux_total (dest : List String) (name : String) :
    (copy_file_aux dest name 0 name (dest.length + 2)).isSome := by
  apply copy_file_aux_isSome
  by_cases hn : name ∈ dest
  · right
    obtain ⟨k, hk1, hk2, hk3⟩ := exists_free_candidate dest name
    exact ⟨k, by omega, by omega, hk3⟩
  · left
    exact ⟨hn, by omega⟩

/-- `copy_file_run` is the value the fueled loop actually computes: the
`getD` default is never reached. -/
lemma copy_file_aux_eq_run (dest : List String) (name : String) :
    copy_file_aux dest name 0 name (dest.length + 2) = some (copy_file_run dest name) := by
  obtain ⟨r, hr⟩ := Option.isSome_iff_exists.mp (copy_file_aux_total dest name)
  rw [copy_file_run, hr]
  rfl

/-- Full characterization of the collision loop: the result is free, the
count only grows, count unchanged means the candidate entering was taken
unchanged, and a strictly larger final count means the entering candidate
was in the way, the result is the candidate of the final count, and every
intermediate candidate was in the way too. -/
lemma copy_file_aux_spec (dest : List String) (name : String) :
    ∀ (fuel append : Nat) (cur : String) (r : String × Nat),
      copy_file_aux dest name append cur fuel = some r →
      r.1 ∉ dest ∧ append ≤ r.2 ∧
      (r.2 = append → r.1 = cur) ∧
      (append < r.2 → cur ∈ dest ∧ r.1 = disambiguate name r.2 ∧
        ∀ j, append < j → j < r.2 → disambiguate name j ∈ dest) := by
  intro fuel
  induction fuel with
  | zero => intro append cur r h; exact absurd h (by simp [copy_file_aux])
  | succ f ih =>
    intro append cur r h
    by_cases hcur : cur ∈ dest
    · rw [copy_file_aux, if_pos hcur] at h
      obtain ⟨h1, h2, h3, h4⟩ := ih (append + 1) (disambiguate name (append + 1)) r h
      refine ⟨h1, by omega, ?_, ?_⟩
      · intro he; omega
      · intro _
        refine ⟨hcur, ?_, ?_⟩
        · by_cases he : r.2 = append + 1
          · rw [h3 he, he]
          · exact (h4 (by omega)).2.1
        · intro j hj1 hj2
          by_cases hje : j = append + 1
          · subst hje
            exact (h4 (by omega)).1
          · exact (h4 (by omega)).2.2 j (by omega) hj2
    · rw [copy_file_aux, if_neg hcur] at h
      obtain rfl : (cur, append) = r := by simpa using h
      exact ⟨hcur, le_refl _, fun _ => rfl, fun hlt => absurd hlt (by omega)⟩

/-- The characterization transferred to `copy_file_run`. -/
lemma copy_file_run_spec (dest : List String) (name : String) :
    (copy_file_run dest name).1 ∉ dest ∧
    ((copy_file_run dest name).2 = 0 → (copy_file_run dest name).1 = name) ∧
    (0 < (copy_file_run dest name).2 →
      name ∈ dest ∧
      (copy_file_run dest name).1 = disambiguate name (copy_file_run dest name).2 ∧
      ∀ j, 0 < j → j < (copy_file_run dest name).2 → disambiguate name j ∈ dest) := by
  obtain ⟨h1, _, h3, h4⟩ :=
    copy_file_aux_spec dest name (dest.length + 2) 0 name _ (copy_file_aux_eq_run dest name)
  exact ⟨h1, h3, h4⟩

/-! ### Lemmas: the directory namer -/

/-- A nonempty path is among its own ancestors. -/
lemma mem_ancestors_self : ∀ (p : List String), p ≠ [] → p ∈ ancestors p := by
  intro p hp
  induction p with
  | nil => exact absurd rfl hp
  | cons a rest ih =>
    cases rest with
    | nil => simp [ancestors]
    | cons b bs =>
      simp only [ancestors, List.mem_cons]
      right
      exact List.mem_map.mpr ⟨b :: bs, ih (by simp), rfl⟩

/-- Whatever branch is taken, `create_dir` returns the same path: the one
named by the base directory, the media directory, the year and the
year-month parts of the date string. -/
lemma create_dir_path (dest_dir : String) (fs : List (List String))
    (date_string : String) (media_dir : String) :
    (create_dir dest_dir fs date_string media_dir).2 =
      [dest_dir, media_dir, (pySplit ':' date_string).getD 0 "",
        (pySplit ':' date_string).getD 0 "" ++ "-" ++ (pySplit ':' date_string).getD 1 ""] := by
  rw [create_dir]
  split <;> rfl

/-- When the target directory already exists, `create_dir` leaves the
directory state unchanged and just returns the path. -/
lemma create_dir_already (dest_dir : String) (fs : List (List String))
    (date_string : String) (media_dir : String)
    (h : [dest_dir, media_dir, (pySplit ':' date_string).getD 0 "",
      (pySplit ':' date_string).getD 0 "" ++ "-" ++
        (pySplit ':' date_string).getD 1 ""] ∈ fs) :
    create_dir dest_dir fs date_string media_dir =
      (fs, [dest_dir, media_dir, (pySplit ':' date_string).getD 0 "",
        (pySplit ':' date_string).getD 0 "" ++ "-" ++
          (pySplit ':' date_string).getD 1 ""]) := by
  simp only [create_dir]
  rw [if_pos h]

/-- After `create_dir`, the returned directory exists. -/
lemma create_dir_mem (dest_dir : String) (fs : List (List String))
    (date_string : String) (media_dir : String) :
    (create_dir dest_dir fs date_string media_dir).2 ∈
      (create_dir dest_dir fs date_string media_dir).1 := by
  rw [create_dir]
  set p := [dest_dir, media_dir, (pySplit ':' date_string).getD 0 "",
    (pySplit ':' date_string).getD 0 "" ++ "-" ++ (pySplit ':' date_string).getD 1 ""] with hp
  by_cases h : p ∈ fs
  · simp [h]
  · simp only [h, if_neg, if_false, makedirs]
    have hmem : p ∈ ancestors p := mem_ancestors_self p (by simp [hp])
    simp only [List.mem_append, List.mem_filter]
    right
    refine ⟨hmem, ?_⟩
    simpa using h

/-! ### Lemmas: the date resolver -/

/-- The fallback branch of `get_best_date`: no usable metadata means the
earlier of the two filesystem timestamps is rendered through the strftime
format, with the trusted flag false. -/
lemma get_best_date_fallback (localtime : Nat → Tm) (f : MediaFile)
    (h : (infoTruthy f.exifInfo && hasTag f.exifInfo 36867) = false) :
    get_best_date localtime f =
      (strftime_fmt (localtime (min f.created f.modified)), false) := by
  have harg : (if f.modified < f.created then f.modified else f.created) =
      min f.created f.modified := by
    rcases Nat.lt_or_ge f.modified f.created with hlt | hge
    · rw [if_pos hlt]; omega
    · rw [if_neg (by omega)]; omega
  simp only [get_best_date, h, Bool.false_eq_true, if_false, harg]

/-- The metadata branch of `get_best_date`: a truthy dictionary with the
DateTimeOriginal key returns the looked-up value, trusted. -/
lemma get_best_date_exif (localtime : Nat → Tm) (f : MediaFile)
    (h : (infoTruthy f.exifInfo && hasTag f.exifInfo 36867) = true) :
    get_best_date localtime f = (getTag f.exifInfo 36867, true) := by
  simp only [get_best_date, h, if_true]

/-! ### Lemmas: the orchestrator loop -/

/-- Bumping the histogram adds exactly one to the sum of its counts. -/
lemma sumCounts_bump (m : List (String × Nat)) (k : String) :
    sumCounts (bump m k) = sumCounts m + 1 := by
  induction m with
  | nil => simp [bump, sumCounts]
  | cons p rest ih =>
    by_cases h : p.1 == k
    · simp only [bump, h, if_pos, sumCounts, List.map_cons, List.sum_cons]
      simp only [sumCounts] at *
      omega
    · simp only [bump, h, Bool.false_eq_true, if_false, sumCounts, List.map_cons,
        List.sum_cons]
      simp only [sumCounts] at ih
      omega

/-- The per-file loop body on an ignored base name: all counters, the
histogram and the per-file log line are updated, the ignored counter is
incremented, and the destination filesystem is untouched. -/
lemma process_file_ignored (localtime : Nat → Tm) (dest_dir : String)
    (st : OrgState) (f : MediaFile) (h : f.name ∈ ignore_files) :
    process_file localtime dest_dir st f =
      { total_files := st.total_files + 1,
        ignored_files := st.ignored_files + 1,
        total_exif := if (get_best_date localtime f).2 then st.total_exif + 1
          else st.total_exif,
        total_photos := if pyLower (pyExt f.name) ∈ photo_exts then st.total_photos + 1
          else st.total_photos,
        total_videos := if pyLower (pyExt f.name) ∈ photo_exts then st.total_videos
          else if pyLower (pyExt f.name) ∈ video_exts then st.total_videos + 1
          else st.total_videos,
        file_exts := bump st.file_exts (pyLower (pyExt f.name)),
        dirs := st.dirs, destFiles := st.destFiles,
        logLines := st.logLines ++
          [(if (get_best_date localtime f).2 then "(Exif) " else "") ++
            (get_best_date localtime f).1 ++ " " ++ (f.root ++ "/" ++ f.name)] } := by
  by_cases hp : pyLower (pyExt f.name) ∈ photo_exts
  · simp [process_file, h, hp]
  · by_cases hv : pyLower (pyExt f.name) ∈ video_exts <;>
      simp [process_file, h, hp, hv]

/-- The per-file loop body on a non-ignored base name: the same counter,
histogram and log updates, the ignored counter unchanged, the target
directory created, the file copied under the collision-free name, and a
rename line logged exactly when the copier disambiguated. -/
lemma process_file_not_ignored (localtime : Nat → Tm) (dest_dir : String)
    (st : OrgState) (f : MediaFile) (h : f.name ∉ ignore_files) :
    process_file localtime dest_dir st f =
      (let file_ext := pyLower (pyExt f.name)
       let bd := get_best_date localtime f
       let media_dir := if file_ext ∈ photo_exts then "Pictures"
         else if file_ext ∈ video_exts then "Videos" else "Other"
       let cd := create_dir dest_dir st.dirs bd.1 media_dir
       let cf := copy_file_run (filesIn st.destFiles cd.2) f.name
       { total_files := st.total_files + 1,
         ignored_files := st.ignored_files,
         total_exif := if bd.2 then st.total_exif + 1 else st.total_exif,
         total_photos := if file_ext ∈ photo_exts then st.total_photos + 1
           else st.total_photos,
         total_videos := if file_ext ∈ photo_exts then st.total_videos
           else if file_ext ∈ video_exts then st.total_videos + 1 else st.total_videos,
         file_exts := bump st.file_exts file_ext,
         dirs := cd.1,
         destFiles := st.destFiles ++ [(cd.2, cf.1)],
         logLines := (st.logLines ++
             [(if bd.2 then "(Exif) " else "") ++ bd.1 ++ " " ++
               (f.root ++ "/" ++ f.name)]) ++
           (if cf.2 > 0 then ["Renamed " ++ f.name ++ " to " ++ cf.1] else []) }) := by
  by_cases hp : pyLower (pyExt f.name) ∈ photo_exts
  · by_cases hr : (copy_file_run
        (filesIn st.destFiles
          (create_dir dest_dir st.dirs (get_best_date localtime f).1 "Pictures").2)
        f.name).2 > 0 <;>
      simp [process_file, h, hp, hr]
  · by_cases hv : pyLower (pyExt f.name) ∈ video_exts
    · by_cases hr : (copy_file_run
          (filesIn st.destFiles
            (create_dir dest_dir st.dirs (get_best_date localtime f).1 "Videos").2)
          f.name).2 > 0 <;>
        simp [process_file, h, hp, hv, hr]
    · by_cases hr : (copy_file_run
          (filesIn st.destFiles
            (create_dir dest_dir st.dirs (get_best_date localtime f).1 "Other").2)
          f.name).2 > 0 <;>
        simp [process_file, h, hp, hv, hr]

/-- The stats fields of the per-file loop body, identical in the ignored
and non-ignored branches. -/
lemma process_file_stats (localtime : Nat → Tm) (dest_dir : String)
    (st : OrgState) (f : MediaFile) :
    (process_file localtime dest_dir st f).total_files = st.total_files + 1 ∧
    (process_file localtime dest_dir st f).file_exts =
      bump st.file_exts (pyLower (pyExt f.name)) ∧
    (process_file localtime dest_dir st f).total_photos =
      (if pyLower (pyExt f.name) ∈ photo_exts then st.total_photos + 1
        else st.total_photos) ∧
    (process_file localtime dest_dir st f).total_videos =
      (if pyLower (pyExt f.name) ∈ photo_exts then st.total_videos
        else if pyLower (pyExt f.name) ∈ video_exts then st.total_videos + 1
        else st.total_videos) := by
  by_cases h : f.name ∈ ignore_files
  · rw [process_file_ignored localtime dest_dir st f h]
    exact ⟨rfl, rfl, rfl, rfl⟩
  · rw [process_file_not_ignored localtime dest_dir st f h]
    exact ⟨rfl, rfl, rfl, rfl⟩

/-! ### The claims -/

/-- C1: for every file whose embedded EXIF metadata contains the
DateTimeOriginal tag (tag 36867) and is readable, `get_best_date` returns
exactly that tag's value as the best date together with the trusted flag
set to true. -/
theorem c1_exif_trusted (localtime : Nat → Tm) (f : MediaFile)
    (info : List (Nat × String)) (pr : Nat × String)
    (hinfo : f.exifInfo = some info)
    (hfind : info.find? (fun p => p.1 == 36867) = some pr) :
    get_best_date localtime f = (pr.2, true) := by
  have hmem : pr ∈ info := List.mem_of_find?_eq_some hfind
  have hpr := List.find?_some hfind
  have hcond : (infoTruthy f.exifInfo && hasTag f.exifInfo 36867) = true := by
    rw [hinfo, Bool.and_eq_true]
    constructor
    · cases info with
      | nil => cases hmem
      | cons a t => rfl
    · simp only [hasTag]
      exact List.any_eq_true.mpr ⟨pr, hmem, hpr⟩
  rw [get_best_date_exif localtime f hcond, hinfo]
  simp [getTag, hfind]

/-- Witness for C1 at a concrete file carrying the tag. -/
theorem c1_witness :
    get_best_date (fun _ => ⟨2020, 1, 15, 10, 0, 0⟩)
      ⟨"root", "a.jpg", some [(36867, "2020:01:15 10:00:00")], 5, 7⟩ =
    ("2020:01:15 10:00:00", true) :=
  c1_exif_trusted _ _ [(36867, "2020:01:15 10:00:00")]
    (36867, "2020:01:15 10:00:00") rfl rfl

/-- C2: for every file that lacks a readable DateTimeOriginal tag —
including every case where opening the file as an image or reading its
metadata failed (modelled by the `none` metadata outcome, which the bare
`except` produces for any error) — `get_best_date` propagates no error and
returns the earlier of the filesystem creation and modification times,
formatted as a local-time string, with the trusted flag false. -/
theorem c2_fallback_min_time (localtime : Nat → Tm) (f : MediaFile)
    (h : (infoTruthy f.exifInfo && hasTag f.exifInfo 36867) = false) :
    get_best_date localtime f =
      (strftime_fmt (localtime (min f.created f.modified)), false) :=
  get_best_date_fallback localtime f h

/-- Witness for C2 at a concrete file with a failed metadata read. -/
theorem c2_witness :
    get_best_date (fun _ => ⟨2020, 1, 15, 13, 0, 0⟩) ⟨"root", "b.mp4", none, 5, 7⟩ =
      ("2020:01:15 01:00:00", false) := by
  rw [c2_fallback_min_time (fun _ => ⟨2020, 1, 15, 13, 0, 0⟩)
    ⟨"root", "b.mp4", none, 5, 7⟩ rfl]
  rfl

/-- C3: `copy_file`'s collision loop never settles on a name already
present: the name it copies to is absent from the destination; if the
count stayed 0 the original name was free and is used; if the count ended
positive, the original name was taken, the result is the candidate of the
final count, and every candidate of a smaller positive count was taken
(the count increases strictly by one per attempt); a taken original name
always forces a positive count. -/
theorem c3_no_overwrite (dest : List String) (name : String) :
    (copy_file_run dest name).1 ∉ dest ∧
    ((copy_file_run dest name).2 = 0 →
      (copy_file_run dest name).1 = name ∧ name ∉ dest) ∧
    (0 < (copy_file_run dest name).2 →
      name ∈ dest ∧
      (copy_file_run dest name).1 = disambiguate name (copy_file_run dest name).2 ∧
      ∀ j, 0 < j → j < (copy_file_run dest name).2 → disambiguate name j ∈ dest) ∧
    (name ∈ dest → 0 < (copy_file_run dest name).2) := by
  obtain ⟨h1, h2, h3⟩ := copy_file_run_spec dest name
  refine ⟨h1, ?_, h3, ?_⟩
  · intro h0
    refine ⟨h2 h0, ?_⟩
    rw [← h2 h0]
    exact h1
  · intro hmem
    rcases Nat.eq_zero_or_pos (copy_file_run dest name).2 with h0 | hpos
    · exact absurd hmem (by rw [← h2 h0]; exact h1)
    · exact hpos

/-- Witness for C3 at a concrete collision. -/
theorem c3_witness :
    "name.ext" ∈ (["name.ext"] : List String) ∧
      0 < (copy_file_run ["name.ext"] "name.ext").2 :=
  ⟨by decide, (c3_no_overwrite ["name.ext"] "name.ext").2.2.2 (by decide)⟩

/-- C4 counterexample: the claim says the returned date-time always has a
24-hour hour field, but the fallback format string uses `%I` (12-hour
clock): at a local fallback time of 13:00:00 the code renders the hour as
`01`, not `13`, so the output differs from the 24-hour rendering of the
same broken-down time. -/
theorem c4_counterexample :
    (get_best_date (fun _ => ⟨2020, 1, 15, 13, 0, 0⟩)
        ⟨"root", "b.mp4", none, 5, 7⟩).1 = "2020:01:15 01:00:00" ∧
    specColonFormat 2020 1 15 13 0 0 = "2020:01:15 13:00:00" ∧
    (get_best_date (fun _ => ⟨2020, 1, 15, 13, 0, 0⟩)
        ⟨"root", "b.mp4", none, 5, 7⟩).1 ≠ specColonFormat 2020 1 15 13 0 0 := by
  refine ⟨by decide, by decide, by decide⟩

/-- C4 amended: the fallback output is the colon-delimited
`year:month:day hour:minute:second` form, but with the hour rendered on the
12-hour clock (`%I`); in the EXIF case the raw tag value is returned
verbatim, not re-formatted. -/
theorem c4_format_amended (localtime : Nat → Tm) (f : MediaFile) :
    ((infoTruthy f.exifInfo && hasTag f.exifInfo 36867) = false →
      (get_best_date localtime f).1 =
        specColonFormat (localtime (min f.created f.modified)).year
          (localtime (min f.created f.modified)).month
          (localtime (min f.created f.modified)).mday
          (hour12 (localtime (min f.created f.modified)).hour)
          (localtime (min f.created f.modified)).minute
          (localtime (min f.created f.modified)).sec) ∧
    ((infoTruthy f.exifInfo && hasTag f.exifInfo 36867) = true →
      (get_best_date localtime f).1 = getTag f.exifInfo 36867) := by
  constructor
  · intro h
    rw [get_best_date_fallback localtime f h]
    rfl
  · intro h
    rw [get_best_date_exif localtime f h]

/-- Witness for the amended C4 at a concrete fallback. -/
theorem c4_witness :
    (get_best_date (fun _ => ⟨2021, 3, 2, 0, 5, 9⟩)
        ⟨"root", "c.avi", none, 11, 4⟩).1 =
      specColonFormat 2021 3 2 (hour12 0) 5 9 :=
  (c4_format_amended (fun _ => ⟨2021, 3, 2, 0, 5, 9⟩)
    ⟨"root", "c.avi", none, 11, 4⟩).1 rfl

/-- C5: for every file whose base name is in the fixed ignore list, the
orchestrator increments the ignored counter and performs no directory
creation and no copy, but the total-files counter, the extension
histogram, the date resolution, the exif-trusted counter, and the per-file
log line are updated exactly as for a non-ignored file (the second
conjunct exhibits the identical update formulas in the non-ignored
case). -/
theorem c5_ignored_updates (localtime : Nat → Tm) (dest_dir : String)
    (st : OrgState) (f : MediaFile) :
    (f.name ∈ ignore_files →
      process_file localtime dest_dir st f =
        { total_files := st.total_files + 1,
          ignored_files := st.ignored_files + 1,
          total_exif := if (get_best_date localtime f).2 then st.total_exif + 1
            else st.total_exif,
          total_photos := if pyLower (pyExt f.name) ∈ photo_exts then
            st.total_photos + 1 else st.total_photos,
          total_videos := if pyLower (pyExt f.name) ∈ photo_exts then st.total_videos
            else if pyLower (pyExt f.name) ∈ video_exts then st.total_videos + 1
            else st.total_videos,
          file_exts := bump st.file_exts (pyLower (pyExt f.name)),
          dirs := st.dirs, destFiles := st.destFiles,
          logLines := st.logLines ++
            [(if (get_best_date localtime f).2 then "(Exif) " else "") ++
              (get_best_date localtime f).1 ++ " " ++ (f.root ++ "/" ++ f.name)] }) ∧
    (f.name ∉ ignore_files →
      (process_file localtime dest_dir st f).total_files = st.total_files + 1 ∧
      (process_file localtime dest_dir st f).ignored_files = st.ignored_files ∧
      (process_file localtime dest_dir st f).total_exif =
        (if (get_best_date localtime f).2 then st.total_exif + 1
          else st.total_exif) ∧
      (process_file localtime dest_dir st f).total_photos =
        (if pyLower (pyExt f.name) ∈ photo_exts then st.total_photos + 1
          else st.total_photos) ∧
      (process_file localtime dest_dir st f).total_videos =
        (if pyLower (pyExt f.name) ∈ photo_exts then st.total_videos
          else if pyLower (pyExt f.name) ∈ video_exts then st.total_videos + 1
          else st.total_videos) ∧
      (process_file localtime dest_dir st f).file_exts =
        bump st.file_exts (pyLower (pyExt f.name)) ∧
      ∃ tail, (process_file localtime dest_dir st f).logLines =
        (st.logLines ++
          [(if (get_best_date localtime f).2 then "(Exif) " else "") ++
            (get_best_date localtime f).1 ++ " " ++ (f.root ++ "/" ++ f.name)]) ++
          tail) := by
  constructor
  · exact process_file_ignored localtime dest_dir st f
  · intro h
    rw [process_file_not_ignored localtime dest_dir st f h]
    exact ⟨rfl, rfl, rfl, rfl, rfl, rfl, _, rfl⟩

/-- Witness for C5: processing a concrete `Thumbs.db` file. -/
theorem c5_witness :
    process_file (fun _ => ⟨2020, 1, 15, 10, 0, 0⟩) "E:/Media" (init_state [] [])
        ⟨"root", "Thumbs.db", none, 5, 7⟩ =
      { total_files := 1, ignored_files := 1, total_exif := 0, total_photos := 0,
        total_videos := 0, file_exts := [(".db", 1)], dirs := [], destFiles := [],
        logLines := ["2020:01:15 10:00:00 root/Thumbs.db"] } := by
  rw [(c5_ignored_updates (fun _ => ⟨2020, 1, 15, 10, 0, 0⟩) "E:/Media"
    (init_state [] []) ⟨"root", "Thumbs.db", none, 5, 7⟩).1 (by decide)]
  rfl

/-- C6: the disambiguated name splits the colliding filename on every dot
and appends the count to the first segment only: `name.ext` becomes
`name-1.ext`, the multi-dot `my.photo.jpg` becomes `my-1.photo.jpg` (the
first segment, not the final extension, is disambiguated), and the dotless
`name` still yields the valid `name-1`; the loop indeed copies to those
names on a collision. -/
theorem c6_first_segment_disambiguation :
    disambiguate "name.ext" 1 = "name-1.ext" ∧
    disambiguate "my.photo.jpg" 1 = "my-1.photo.jpg" ∧
    disambiguate "name" 1 = "name-1" ∧
    copy_file_run ["name.ext"] "name.ext" = ("name-1.ext", 1) ∧
    copy_file_run ["my.photo.jpg"] "my.photo.jpg" = ("my-1.photo.jpg", 1) ∧
    copy_file_run ["name"] "name" = ("name-1", 1) :=
  ⟨rfl, rfl, rfl, by decide, by decide, by decide⟩

/-- C7 counterexample: the claim asserts non-raising success for every
date string, but for a date string with no colon the split has a single
part and Python's `parts[1]` at line 74 raises `IndexError` (modelled by
the `none` result of `create_dir_checked`), on the first call and on any
repeat alike, so no path is returned at all. -/
theorem c7_counterexample :
    pySplit ':' "nocolon" = ["nocolon"] ∧
    create_dir_checked "E:/Media" [] "nocolon" "Pictures" = none := by
  exact ⟨rfl, rfl⟩

/-- C7 amended: for every destination root, category label, and
colon-delimited date string (one whose split on `':'` has at least two
parts, so Python's `parts[1]` exists), `create_dir` raises no error —
neither on the first call nor on the second, in particular when the
directory already exists — returns the same path both times, and the
directory contents present after the first call are unchanged by the
second; on a date string with no colon it instead raises `IndexError` on
both calls. -/
theorem c7_create_dir_idempotent (dest_dir : String) (fs : List (List String))
    (date_string : String) (media_dir : String)
    (h : 2 ≤ (pySplit ':' date_string).length) :
    create_dir_checked dest_dir fs date_string media_dir =
      some (create_dir dest_dir fs date_string media_dir) ∧
    create_dir_checked dest_dir (create_dir dest_dir fs date_string media_dir).1
        date_string media_dir =
      some (create_dir dest_dir (create_dir dest_dir fs date_string media_dir).1
        date_string media_dir) ∧
    (create_dir dest_dir (create_dir dest_dir fs date_string media_dir).1
        date_string media_dir).2 =
      (create_dir dest_dir fs date_string media_dir).2 ∧
    (create_dir dest_dir (create_dir dest_dir fs date_string media_dir).1
        date_string media_dir).1 =
      (create_dir dest_dir fs date_string media_dir).1 := by
  have hmem := create_dir_mem dest_dir fs date_string media_dir
  have hpath := create_dir_path dest_dir fs date_string media_dir
  rw [hpath] at hmem
  have hsecond := create_dir_already dest_dir
    (create_dir dest_dir fs date_string media_dir).1 date_string media_dir hmem
  refine ⟨?_, ?_, ?_, ?_⟩
  · rw [create_dir_checked, if_pos h]
  · rw [create_dir_checked, if_pos h]
  · rw [hsecond]
    exact hpath.symm
  · rw [hsecond]

/-- Witness for the amended C7 at the spec's concrete date string. -/
theorem c7_witness :
    2 ≤ (pySplit ':' "2017:06:19 12:26:16").length ∧
    (create_dir "E:/Media"
        (create_dir "E:/Media" [] "2017:06:19 12:26:16" "Pictures").1
        "2017:06:19 12:26:16" "Pictures").1 =
      (create_dir "E:/Media" [] "2017:06:19 12:26:16" "Pictures").1 :=
  ⟨by decide, (c7_create_dir_idempotent "E:/Media" [] "2017:06:19 12:26:16"
    "Pictures" (by decide)).2.2.2⟩

/-- C8: `create_dir` produces the path `root/category/YYYY/YYYY-MM` from
the colon-delimited date string, the produced directory exists afterwards,
and when it did not yet exist every missing segment of it is created; for
date `2017:06:19 12:26:16` and category `Pictures` the produced path's
last two segments are `2017` then `2017-06`. -/
theorem c8_create_dir_layout (dest_dir : String) (fs : List (List String))
    (date_string : String) (media_dir : String) (y mo : String) (rest : List String)
    (hparts : pySplit ':' date_string = y :: mo :: rest) :
    (create_dir dest_dir fs date_string media_dir).2 =
      [dest_dir, media_dir, y, y ++ "-" ++ mo] ∧
    (create_dir dest_dir fs date_string media_dir).2 ∈
      (create_dir dest_dir fs date_string media_dir).1 ∧
    ([dest_dir, media_dir, y, y ++ "-" ++ mo] ∉ fs →
      ∀ q ∈ ancestors [dest_dir, media_dir, y, y ++ "-" ++ mo],
        q ∈ (create_dir dest_dir fs date_string media_dir).1) ∧
    (create_dir "E:/Media" [] "2017:06:19 12:26:16" "Pictures").2 =
      ["E:/Media", "Pictures", "2017", "2017-06"] := by
  have hpath := create_dir_path dest_dir fs date_string media_dir
  rw [hparts] at hpath
  simp only [List.getD_cons_zero, List.getD_cons_succ] at hpath
  refine ⟨hpath, create_dir_mem dest_dir fs date_string media_dir, ?_, by decide⟩
  intro hnot q hq
  have hnew : create_dir dest_dir fs date_string media_dir =
      (makedirs fs [dest_dir, media_dir, y, y ++ "-" ++ mo],
        [dest_dir, media_dir, y, y ++ "-" ++ mo]) := by
    simp only [create_dir, hparts, List.getD_cons_zero, List.getD_cons_succ]
    rw [if_neg hnot]
  rw [hnew]
  simp only [makedirs, List.mem_append, List.mem_filter]
  by_cases hqf : q ∈ fs
  · exact Or.inl hqf
  · right
    refine ⟨hq, ?_⟩
    simpa using hqf

/-- Witness for C8 at the spec's concrete date and category. -/
theorem c8_witness :
    (create_dir "E:/Media" [] "2017:06:19 12:26:16" "Pictures").2 =
      ["E:/Media", "Pictures", "2017", "2017-06"] :=
  (c8_create_dir_layout "E:/Media" [] "2017:06:19 12:26:16" "Pictures" "2017" "06"
    ["19 12", "26", "16"] rfl).1

/-- C9: `copy_file` returns the new disambiguated filename exactly when a
rename occurred (the original name was taken): when the original name was
free the loop keeps it, the file is copied under it, and `None` is
returned. -/
theorem c9_rename_signal (dest : List String) (name : String) :
    (copy_file dest name = none ↔ name ∉ dest) ∧
    (name ∉ dest → (copy_file_run dest name).1 = name) ∧
    (name ∈ dest →
      copy_file dest name = some (copy_file_run dest name).1 ∧
      (copy_file_run dest name).1 = disambiguate name (copy_file_run dest name).2 ∧
      0 < (copy_file_run dest name).2) := by
  obtain ⟨h1, h2, h3⟩ := copy_file_run_spec dest name
  have hiff : (copy_file_run dest name).2 = 0 ↔ name ∉ dest := by
    constructor
    · intro h0
      rw [← h2 h0]
      exact h1
    · intro hn
      by_contra hne
      exact hn (h3 (by omega)).1
  have hcf : copy_file dest name =
      (if (copy_file_run dest name).2 > 0 then some (copy_file_run dest name).1
        else none) := rfl
  refine ⟨?_, ?_, ?_⟩
  · rcases Nat.eq_zero_or_pos (copy_file_run dest name).2 with h0 | hpos
    · constructor
      · intro _
        exact hiff.mp h0
      · intro _
        rw [hcf, if_neg (by omega)]
    · constructor
      · intro hnone
        rw [hcf, if_pos hpos] at hnone
        cases hnone
      · intro hn
        exact absurd (h3 hpos).1 hn
  · intro hn
    exact h2 (hiff.mpr hn)
  · intro hmem
    have hpos : 0 < (copy_file_run dest name).2 := by
      rcases Nat.eq_zero_or_pos (copy_file_run dest name).2 with h0 | hpos
      · exact absurd hmem (hiff.mp h0)
      · exact hpos
    exact ⟨by rw [hcf, if_pos hpos], (h3 hpos).2.1, hpos⟩

/-- Witness for C9: a free original name is kept and signals no rename. -/
theorem c9_witness :
    ("b" ∉ (["a"] : List String)) ∧ (copy_file_run ["a"] "b").1 = "b" :=
  ⟨by decide, (c9_rename_signal ["a"] "b").2.1 (by decide)⟩

/-- C10: after every processed file the extension-histogram counts sum to
the total-files counter; each processed file bumps exactly one of the
photo or video counters or neither, so photos plus videos never exceed
total files; the invariant holds along the whole walk from the initial
state. -/
theorem c10_stats_invariant (localtime : Nat → Tm) (dest_dir : String) :
    (∀ (st : OrgState) (f : MediaFile),
      ((process_file localtime dest_dir st f).total_photos = st.total_photos + 1 ∧
        (process_file localtime dest_dir st f).total_videos = st.total_videos) ∨
      ((process_file localtime dest_dir st f).total_photos = st.total_photos ∧
        (process_file localtime dest_dir st f).total_videos = st.total_videos + 1) ∨
      ((process_file localtime dest_dir st f).total_photos = st.total_photos ∧
        (process_file localtime dest_dir st f).total_videos = st.total_videos)) ∧
    (∀ (st : OrgState) (f : MediaFile), StatsInv st →
      StatsInv (process_file localtime dest_dir st f)) ∧
    (∀ (dirs : List (List String)) (destFiles : List (List String × String))
        (files : List MediaFile),
      StatsInv (run_walk localtime dest_dir dirs destFiles files)) := by
  have hpres : ∀ (st : OrgState) (f : MediaFile), StatsInv st →
      StatsInv (process_file localtime dest_dir st f) := by
    intro st f hinv
    obtain ⟨hs, he, hp, hv⟩ := process_file_stats localtime dest_dir st f
    obtain ⟨hsum, hle⟩ := hinv
    constructor
    · rw [he, hs, sumCounts_bump, hsum]
    · rw [hs, hp, hv]
      by_cases h1 : pyLower (pyExt f.name) ∈ photo_exts
      · rw [if_pos h1, if_pos h1]
        omega
      · by_cases h2 : pyLower (pyExt f.name) ∈ video_exts
        · rw [if_neg h1, if_neg h1, if_pos h2]
          omega
        · rw [if_neg h1, if_neg h1, if_neg h2]
          omega
  have hfold : ∀ (files : List MediaFile) (st : OrgState), StatsInv st →
      StatsInv (files.foldl (process_file localtime dest_dir) st) := by
    intro files
    induction files with
    | nil => intro st h; exact h
    | cons f fs ih =>
      intro st h
      exact ih _ (hpres st f h)
  refine ⟨?_, hpres, ?_⟩
  · intro st f
    obtain ⟨-, -, hp, hv⟩ := process_file_stats localtime dest_dir st f
    by_cases h1 : pyLower (pyExt f.name) ∈ photo_exts
    · left
      rw [hp, hv, if_pos h1, if_pos h1]
      exact ⟨rfl, rfl⟩
    · by_cases h2 : pyLower (pyExt f.name) ∈ video_exts
      · right; left
        rw [hp, hv, if_neg h1, if_neg h1, if_pos h2]
        exact ⟨rfl, rfl⟩
      · right; right
        rw [hp, hv, if_neg h1, if_neg h1, if_neg h2]
        exact ⟨rfl, rfl⟩
  · intro dirs destFiles files
    exact hfold files (init_state dirs destFiles) ⟨rfl, Nat.le_refl 0⟩

/-- Witness for C10: the invariant is preserved from a concrete state. -/
theorem c10_witness :
    StatsInv (process_file (fun _ => ⟨2020, 1, 15, 10, 0, 0⟩) "E:/Media"
      (init_state [] []) ⟨"root", "a.jpg", none, 5, 7⟩) :=
  (c10_stats_invariant (fun _ => ⟨2020, 1, 15, 10, 0, 0⟩) "E:/Media").2.1
    (init_state [] []) ⟨"root", "a.jpg", none, 5, 7⟩ ⟨rfl, Nat.le_refl 0⟩

end Photos
